import Mathlib

/-!
Shallow embedding of `jsonq.go`, a query layer over decoded JSON values,
together with theorems about its path resolver and type coercers.

`Json` models the Go `interface{}` values this library inspects: the
decoded-JSON constructors (`null`, `bool`, `float`, `str`, `arr`, `obj`)
plus the extra numeric representations the coercion functions switch on
(`int`, `int32`, `int64`, `uint64`, `json.Number`).  Go `float64` is
modelled as a rational (every finite float64 is a rational; nothing
proved here exercises rounding).  The pointer cases (`*string`, `*int`,
...) of the coercion functions are not modelled: the data model has no
pointers and no decoded tree contains them.
-/

inductive Json where
  | null
  | bool (b : Bool)
  | float (q : Rat)
  | int (n : Int)
  | int32 (n : Int)
  | int64 (n : Int)
  | uint64 (n : Nat)
  | str (s : String)
  | number (s : String)
  | arr (xs : List Json)
  | obj (fields : List (String × Json))

/-- The structured content of every error the Go code builds with
`fmt.Errorf`: one constructor per format string, carrying exactly the
format arguments (the offending value, segment, index ...). -/
inductive JErr where
  | notAnArray (blob : Json)
  | indexOutOfBounds (index : Int) (blob : Json)
  | notAnObject (q : String) (blob : Json)
  | keyNotFound (blob : Json) (q : String)
  | nilValue (seg : String)
  | typeMismatch (shape : String) (val : Json)
  | numError (input : String) (isRange : Bool)

/-- A Go `(value, error)` return, plus `crash` for a runtime panic
(index out of range). -/
inductive GoRes (α : Type) where
  | ret (v : α) (e : Option JErr)
  | crash

/-- Accumulation of base-10 digits; `none` when a non-digit appears
(`strconv`'s per-character check `'0' <= c && c <= '9'`). -/
def digitsToNat : List Char → Nat → Option Nat
  | [], acc => some acc
  | c :: rest, acc =>
    if '0' ≤ c ∧ c ≤ '9' then digitsToNat rest (acc * 10 + (c.toNat - 48))
    else none

/-- Model of `strconv.Atoi`, which is `strconv.ParseInt(s, 10, 0)`: an
optional sign, then one or more base-10 digits covering the whole
string, with the result inside the 64-bit signed range; `none` on any
syntax or range error. -/
def atoi (s : String) : Option Int :=
  let signed : Int × List Char :=
    match s.data with
    | '-' :: rest => (-1, rest)
    | '+' :: rest => (1, rest)
    | rest => (1, rest)
  match signed.2 with
  | [] => none
  | cs =>
    match digitsToNat cs 0 with
    | none => none
    | some n =>
      let v : Int := signed.1 * n
      if -(2 ^ 63) ≤ v ∧ v < 2 ^ 63 then some v else none

/-- Membership in the delimiter set `".[]"` of the path tokenizer. -/
def isDelim (c : Char) : Bool := c == '.' || c == '[' || c == ']'

/-- Model of `strings.FieldsFunc(s, isDelim)`: split at delimiter
characters, discarding empty fields.  `cur` is the (reversed) pending
field. -/
def fieldsFuncGo : List Char → List Char → List String
  | [], cur => if cur = [] then [] else [String.mk cur.reverse]
  | c :: rest, cur =>
    if isDelim c then
      if cur = [] then fieldsFuncGo rest []
      else String.mk cur.reverse :: fieldsFuncGo rest []
    else fieldsFuncGo rest (c :: cur)

def fieldsFunc (s : String) : List String := fieldsFuncGo s.data []

/-- Go map lookup on the decoded object (decoded JSON keys are unique,
so first-match lookup is faithful). -/
def lookupField : List (String × Json) → String → Option Json
  | [], _ => none
  | (k, v) :: rest, q => if k = q then some v else lookupField rest q

/-- Model of `query`: resolve one segment.  A segment accepted by
`strconv.Atoi` selects the array branch; there the Go code only checks
`len(blob) > index`, so a negative parsed index passes the check and the
element access `blob[index]` is a runtime panic (`GoRes.crash`).  A
non-integer segment selects the object branch. -/
def query (blob : Json) (q : String) : GoRes Json :=
  match atoi q with
  | some index =>
    match blob with
    | Json.arr xs =>
      if index < (xs.length : Int) then
        if 0 ≤ index then GoRes.ret (xs.getD index.toNat Json.null) none
        else GoRes.crash
      else GoRes.ret Json.null (some (JErr.indexOutOfBounds index blob))
    | _ => GoRes.ret Json.null (some (JErr.notAnArray blob))
  | none =>
    match blob with
    | Json.obj fields =>
      match lookupField fields q with
      | some v => GoRes.ret v none
      | none => GoRes.ret Json.null (some (JErr.keyNotFound blob q))
    | _ => GoRes.ret Json.null (some (JErr.notAnObject q blob))

/-- The segment loop of `rquery`: each failure returns `(nil, err)`
immediately. -/
def queryList (blob : Json) (terms : List String) : GoRes Json :=
  match terms with
  | [] => GoRes.ret blob none
  | q :: rest =>
    match query blob q with
    | GoRes.crash => GoRes.crash
    | GoRes.ret _ (some e) => GoRes.ret Json.null (some e)
    | GoRes.ret v none => queryList v rest

/-- The effective segment sequence of `rquery`: a single argument that
contains one of `.[]` is re-tokenized, anything else is used verbatim. -/
def effTerms (s : List String) : List String :=
  match s with
  | [x] => if x.data.any isDelim then fieldsFunc x else [x]
  | _ => s

/-- Model of `rquery`: run the segment loop, then apply the final null
check.  The null check formats `s[len(s)-1]`, which is a runtime panic
when the original argument list is empty. -/
def rquery (blob : Json) (s : List String) : GoRes Json :=
  match queryList blob (effTerms s) with
  | GoRes.crash => GoRes.crash
  | GoRes.ret _ (some e) => GoRes.ret Json.null (some e)
  | GoRes.ret val none =>
    match val with
    | Json.null =>
      match s.getLast? with
      | some last => GoRes.ret Json.null (some (JErr.nilValue last))
      | none => GoRes.crash
    | _ => GoRes.ret val none

/-- Model of `stringFromInterface`: only a string source is accepted. -/
def stringFromInterface (val : Json) : String × Option JErr :=
  match val with
  | Json.str s => (s, none)
  | _ => ("", some (JErr.typeMismatch "String" val))

/-- Model of `boolFromInterface`: only a boolean source is accepted. -/
def boolFromInterface (val : Json) : Bool × Option JErr :=
  match val with
  | Json.bool b => (b, none)
  | _ => (false, some (JErr.typeMismatch "Bool" val))

/-- Go's `int64(f)` conversion of a float64: truncation toward zero
(`Int.tdiv` is T-division). -/
def ratTrunc (q : Rat) : Int := q.num.tdiv (q.den : Int)

/-- Go's `int64(u)` conversion of a uint64: two's-complement
reinterpretation, i.e. reduction modulo 2^64 into `[-2^63, 2^63)`. -/
def int64OfUint64 (n : Nat) : Int := ((n : Int) + 2 ^ 63) % 2 ^ 64 - 2 ^ 63

/-- Model of `json.Number.Int64()`, which is
`strconv.ParseInt(s, 10, 64)`, including the values Go pairs with an
error: `0` on a syntax error, the clamped extremum on a range error. -/
def parseInt64Go (s : String) : Int × Option JErr :=
  let signed : Int × List Char :=
    match s.data with
    | '-' :: rest => (-1, rest)
    | '+' :: rest => (1, rest)
    | rest => (1, rest)
  match signed.2 with
  | [] => (0, some (JErr.numError s false))
  | cs =>
    match digitsToNat cs 0 with
    | none => (0, some (JErr.numError s false))
    | some n =>
      let v : Int := signed.1 * n
      if v < -(2 ^ 63) then (-(2 ^ 63), some (JErr.numError s true))
      else if 2 ^ 63 ≤ v then (2 ^ 63 - 1, some (JErr.numError s true))
      else (v, none)

/-- Model of `intFromInterface`, the Go type switch.  The string case
falls through to the final `TypeMismatch` on parse failure; the
`json.Number` case propagates the `strconv` error (and its clamped
value). -/
def intFromInterface (val : Json) : Int × Option JErr :=
  match val with
  | Json.float q => (ratTrunc q, none)
  | Json.str s =>
    match atoi s with
    | some i => (i, none)
    | none => (0, some (JErr.typeMismatch "Int" val))
  | Json.int n => (n, none)
  | Json.number s => parseInt64Go s
  | Json.int32 n => (n, none)
  | Json.int64 n => (n, none)
  | Json.uint64 n => (int64OfUint64 n, none)
  | _ => (0, some (JErr.typeMismatch "Int" val))

/-- Model of `objectFromInterface`: only a mapping source is accepted;
the error case pairs the empty map. -/
def objectFromInterface (val : Json) : List (String × Json) × Option JErr :=
  match val with
  | Json.obj fields => (fields, none)
  | _ => ([], some (JErr.typeMismatch "Object" val))

/-- Model of `arrayFromInterface`: only a sequence source is accepted;
the error case pairs the empty array. -/
def arrayFromInterface (val : Json) : List Json × Option JErr :=
  match val with
  | Json.arr xs => (xs, none)
  | _ => ([], some (JErr.typeMismatch "Array" val))

/-- The query context: a dynamic value plus the panic-on-error flag. -/
structure JsonQuery where
  blob : Json
  SingleValuePanicOnError : Bool

/-- Result of an inline (`As`/`Must`) accessor: a normal value, an
explicit `panic(err)`, or a propagated runtime panic. -/
inductive PanicOr (α : Type) where
  | panicked (e : JErr)
  | value (v : α)
  | crash

/-- Model of the method `Get`. -/
def jqGet (j : JsonQuery) (s : List String) : GoRes Json := rquery j.blob s

/-- Model of the method `Bool`. -/
def jqBool (j : JsonQuery) (s : List String) : GoRes Bool :=
  match rquery j.blob s with
  | GoRes.crash => GoRes.crash
  | GoRes.ret _ (some e) => GoRes.ret false (some e)
  | GoRes.ret val none => let p := boolFromInterface val; GoRes.ret p.1 p.2

/-- Model of the method `Int` (Go `int` is 64-bit here, so the final
`int(i)` conversion is the identity). -/
def jqInt (j : JsonQuery) (s : List String) : GoRes Int :=
  match rquery j.blob s with
  | GoRes.crash => GoRes.crash
  | GoRes.ret _ (some e) => GoRes.ret 0 (some e)
  | GoRes.ret val none => let p := intFromInterface val; GoRes.ret p.1 p.2

/-- Model of the method `Int64`. -/
def jqInt64 (j : JsonQuery) (s : List String) : GoRes Int :=
  match rquery j.blob s with
  | GoRes.crash => GoRes.crash
  | GoRes.ret _ (some e) => GoRes.ret 0 (some e)
  | GoRes.ret val none => let p := intFromInterface val; GoRes.ret p.1 p.2

/-- Model of the method `String`. -/
def jqString (j : JsonQuery) (s : List String) : GoRes String :=
  match rquery j.blob s with
  | GoRes.crash => GoRes.crash
  | GoRes.ret _ (some e) => GoRes.ret "" (some e)
  | GoRes.ret val none => let p := stringFromInterface val; GoRes.ret p.1 p.2

/-- Model of the method `Object`. -/
def jqObject (j : JsonQuery) (s : List String) : GoRes (List (String × Json)) :=
  match rquery j.blob s with
  | GoRes.crash => GoRes.crash
  | GoRes.ret _ (some e) => GoRes.ret [] (some e)
  | GoRes.ret val none => let p := objectFromInterface val; GoRes.ret p.1 p.2

/-- Model of the method `Array`. -/
def jqArray (j : JsonQuery) (s : List String) : GoRes (List Json) :=
  match rquery j.blob s with
  | GoRes.crash => GoRes.crash
  | GoRes.ret _ (some e) => GoRes.ret [] (some e)
  | GoRes.ret val none => let p := arrayFromInterface val; GoRes.ret p.1 p.2

/-- Model of the method `Interface`. -/
def jqInterface (j : JsonQuery) (s : List String) : GoRes Json :=
  match rquery j.blob s with
  | GoRes.crash => GoRes.crash
  | GoRes.ret _ (some e) => GoRes.ret Json.null (some e)
  | GoRes.ret val none => GoRes.ret val none

/-- Model of the method `Exists`. -/
def jqExists (j : JsonQuery) (s : List String) : GoRes Bool :=
  match jqInterface j s with
  | GoRes.crash => GoRes.crash
  | GoRes.ret _ (some _) => GoRes.ret false none
  | GoRes.ret _ none => GoRes.ret true none

/-- Model of the method `Query`: resolve, coerce to object, wrap as a
sub-context with the same flag (`none` stands for Go's nil pointer
result on error). -/
def jqQuery (j : JsonQuery) (s : List String) : GoRes (Option JsonQuery) :=
  match jqObject j s with
  | GoRes.crash => GoRes.crash
  | GoRes.ret _ (some e) => GoRes.ret none (some e)
  | GoRes.ret fields none =>
    GoRes.ret (some ⟨Json.obj fields, j.SingleValuePanicOnError⟩) none

/-- Model of the method `MustQuery`: panics on any error, with no flag
check. -/
def jqMustQuery (j : JsonQuery) (s : List String) : PanicOr JsonQuery :=
  match jqObject j s with
  | GoRes.crash => PanicOr.crash
  | GoRes.ret _ (some e) => PanicOr.panicked e
  | GoRes.ret fields none =>
    PanicOr.value ⟨Json.obj fields, j.SingleValuePanicOnError⟩

/-- Model of the method `AsBool`: on error, panic when the flag is set,
else return the literal `false`. -/
def jqAsBool (j : JsonQuery) (s : List String) : PanicOr Bool :=
  match jqBool j s with
  | GoRes.crash => PanicOr.crash
  | GoRes.ret _ (some e) =>
    if j.SingleValuePanicOnError then PanicOr.panicked e else PanicOr.value false
  | GoRes.ret v none => PanicOr.value v

/-- Model of the method `AsInt`: on error, panic when the flag is set,
else fall through to `return val` (the value paired with the error). -/
def jqAsInt (j : JsonQuery) (s : List String) : PanicOr Int :=
  match jqInt j s with
  | GoRes.crash => PanicOr.crash
  | GoRes.ret v (some e) =>
    if j.SingleValuePanicOnError then PanicOr.panicked e else PanicOr.value v
  | GoRes.ret v none => PanicOr.value v

/-- Model of the method `AsInt64`: same shape as `AsInt`. -/
def jqAsInt64 (j : JsonQuery) (s : List String) : PanicOr Int :=
  match jqInt64 j s with
  | GoRes.crash => PanicOr.crash
  | GoRes.ret v (some e) =>
    if j.SingleValuePanicOnError then PanicOr.panicked e else PanicOr.value v
  | GoRes.ret v none => PanicOr.value v

/-- Model of the method `AsString`. -/
def jqAsString (j : JsonQuery) (s : List String) : PanicOr String :=
  match jqString j s with
  | GoRes.crash => PanicOr.crash
  | GoRes.ret v (some e) =>
    if j.SingleValuePanicOnError then PanicOr.panicked e else PanicOr.value v
  | GoRes.ret v none => PanicOr.value v

/-- Model of the method `AsObject`. -/
def jqAsObject (j : JsonQuery) (s : List String) : PanicOr (List (String × Json)) :=
  match jqObject j s with
  | GoRes.crash => PanicOr.crash
  | GoRes.ret v (some e) =>
    if j.SingleValuePanicOnError then PanicOr.panicked e else PanicOr.value v
  | GoRes.ret v none => PanicOr.value v

/-- Model of the method `AsArray`. -/
def jqAsArray (j : JsonQuery) (s : List String) : PanicOr (List Json) :=
  match jqArray j s with
  | GoRes.crash => PanicOr.crash
  | GoRes.ret v (some e) =>
    if j.SingleValuePanicOnError then PanicOr.panicked e else PanicOr.value v
  | GoRes.ret v none => PanicOr.value v

/-- Model of the method `AsInterface`. -/
def jqAsInterface (j : JsonQuery) (s : List String) : PanicOr Json :=
  match jqInterface j s with
  | GoRes.crash => PanicOr.crash
  | GoRes.ret v (some e) =>
    if j.SingleValuePanicOnError then PanicOr.panicked e else PanicOr.value v
  | GoRes.ret v none => PanicOr.value v

/-- The element loop of `ArrayOfStrings`: `toReturn` is pre-allocated
with zero values for the whole length and filled left to right, so the
result paired with an element error is the coerced prefix, the failing
element's error value, then zeros. -/
def strsFill : List Json → List String × Option JErr
  | [] => ([], none)
  | v :: rest =>
    match (stringFromInterface v).2 with
    | some e => ((stringFromInterface v).1 :: List.replicate rest.length "", some e)
    | none => ((stringFromInterface v).1 :: (strsFill rest).1, (strsFill rest).2)

/-- Model of the method `ArrayOfStrings`. -/
def jqArrayOfStrings (j : JsonQuery) (s : List String) : GoRes (List String) :=
  match jqArray j s with
  | GoRes.crash => GoRes.crash
  | GoRes.ret _ (some e) => GoRes.ret [] (some e)
  | GoRes.ret array none => let p := strsFill array; GoRes.ret p.1 p.2

/-- The element loop of `ArrayOfInts` (same filling discipline as
`strsFill`). -/
def intsFill : List Json → List Int × Option JErr
  | [] => ([], none)
  | v :: rest =>
    match (intFromInterface v).2 with
    | some e => ((intFromInterface v).1 :: List.replicate rest.length 0, some e)
    | none => ((intFromInterface v).1 :: (intsFill rest).1, (intsFill rest).2)

/-- Model of the method `ArrayOfInts`. -/
def jqArrayOfInts (j : JsonQuery) (s : List String) : GoRes (List Int) :=
  match jqArray j s with
  | GoRes.crash => GoRes.crash
  | GoRes.ret _ (some e) => GoRes.ret [] (some e)
  | GoRes.ret array none => let p := intsFill array; GoRes.ret p.1 p.2

/-- Model of the method `AsArrayOfStrings`. -/
def jqAsArrayOfStrings (j : JsonQuery) (s : List String) : PanicOr (List String) :=
  match jqArrayOfStrings j s with
  | GoRes.crash => PanicOr.crash
  | GoRes.ret v (some e) =>
    if j.SingleValuePanicOnError then PanicOr.panicked e else PanicOr.value v
  | GoRes.ret v none => PanicOr.value v

/-- Model of the method `AsArrayOfInts`. -/
def jqAsArrayOfInts (j : JsonQuery) (s : List String) : PanicOr (List Int) :=
  match jqArrayOfInts j s with
  | GoRes.crash => PanicOr.crash
  | GoRes.ret v (some e) =>
    if j.SingleValuePanicOnError then PanicOr.panicked e else PanicOr.value v
  | GoRes.ret v none => PanicOr.value v

/-- Model of the method `ArrayOfQuery`: wrap each element as a
sub-context, no per-element coercion. -/
def jqArrayOfQuery (j : JsonQuery) (s : List String) : GoRes (List JsonQuery) :=
  match jqArray j s with
  | GoRes.crash => GoRes.crash
  | GoRes.ret _ (some e) => GoRes.ret [] (some e)
  | GoRes.ret val none =>
    GoRes.ret (val.map fun v => ⟨v, j.SingleValuePanicOnError⟩) none

/-- Model of the method `MustArrayOfQuery`: despite the `Must` name it
never calls panic; on error it returns the empty result. -/
def jqMustArrayOfQuery (j : JsonQuery) (s : List String) : PanicOr (List JsonQuery) :=
  match jqArray j s with
  | GoRes.crash => PanicOr.crash
  | GoRes.ret _ (some _) => PanicOr.value []
  | GoRes.ret val none =>
    PanicOr.value (val.map fun v => ⟨v, j.SingleValuePanicOnError⟩)

/-- Value class test: is the value a sequence. -/
def isArr : Json → Bool
  | Json.arr _ => true
  | _ => false

/-- Value class test: is the value a mapping. -/
def isObj : Json → Bool
  | Json.obj _ => true
  | _ => false

/-- Relation holding when two resolution results are equal up to the
segment reported inside a NilValue error. -/
def eqModNilSeg : GoRes Json → GoRes Json → Prop
  | GoRes.ret v1 (some (JErr.nilValue _)), GoRes.ret v2 (some (JErr.nilValue _)) => v1 = v2
  | r1, r2 => r1 = r2

/-- Test tree `{"a": {"b": [1,2,3]}}`. -/
def t7 : Json :=
  Json.obj [("a", Json.obj [("b", Json.arr [Json.int 1, Json.int 2, Json.int 3])])]

/-- Test tree whose path a.b[2] holds null. -/
def t4 : Json :=
  Json.obj [("a", Json.obj [("b", Json.arr [Json.bool true, Json.bool true, Json.null])])]

/-- Test context in zero-value mode (flag clear). -/
def cxq : JsonQuery := ⟨Json.obj [("a", Json.bool true)], false⟩

/-- Test context in panic mode (flag set). -/
def cxqP : JsonQuery := ⟨Json.obj [("a", Json.bool true)], true⟩

/-- Splitting the segment loop at a list append. -/
theorem queryList_append (blob : Json) (l1 l2 : List String) :
    queryList blob (l1 ++ l2) =
      match queryList blob l1 with
      | GoRes.crash => GoRes.crash
      | GoRes.ret _ (some e) => GoRes.ret Json.null (some e)
      | GoRes.ret v none => queryList v l2 := by
  induction l1 generalizing blob with
  | nil => rfl
  | cons q rest ih =>
    simp only [List.cons_append, queryList]
    cases hq : query blob q with
    | crash => rfl
    | ret v e =>
      cases e with
      | some err => rfl
      | none => exact ih v

/-- No token produced by the tokenizer contains a delimiter. -/
theorem fieldsFuncGo_no_delim (cs : List Char) (cur : List Char)
    (hcur : ∀ c ∈ cur, isDelim c = false) :
    ∀ x ∈ fieldsFuncGo cs cur, x.data.any isDelim = false := by
  induction cs generalizing cur with
  | nil =>
    intro x hx
    simp only [fieldsFuncGo] at hx
    split at hx
    · simp at hx
    · rw [List.mem_singleton] at hx
      subst hx
      simp only [List.any_eq_false]
      intro c hc
      rw [List.mem_reverse] at hc
      simp [hcur c hc]
  | cons c rest ih =>
    intro x hx
    simp only [fieldsFuncGo] at hx
    by_cases hdc : isDelim c
    · rw [if_pos hdc] at hx
      split at hx
      · exact ih [] (by simp) x hx
      · rcases List.mem_cons.mp hx with h | h
        · subst h
          simp only [List.any_eq_false]
          intro d hd
          rw [List.mem_reverse] at hd
          simp [hcur d hd]
        · exact ih [] (by simp) x h
    · rw [if_neg hdc] at hx
      refine ih (c :: cur) ?_ x hx
      intro d hd
      rcases List.mem_cons.mp hd with h | h
      · subst h; exact Bool.not_eq_true _ ▸ (by simpa using hdc)
      · exact hcur d h

/-- The tokenizer output is a fixed point of the effective-terms
normalization. -/
theorem effTerms_fieldsFunc (p : String) :
    effTerms (fieldsFunc p) = fieldsFunc p := by
  cases h : fieldsFunc p with
  | nil => rfl
  | cons x xs =>
    cases xs with
    | nil =>
      have hx : x.data.any isDelim = false := by
        refine fieldsFuncGo_no_delim p.data [] (by simp) x ?_
        have h' : fieldsFuncGo p.data [] = [x] := h
        rw [h']
        exact List.mem_singleton_self x
      simp [effTerms, hx]
    | cons y ys => rfl

/-- Reflexivity of the up-to-NilValue-segment relation. -/
theorem eqModNilSeg_refl (r : GoRes Json) : eqModNilSeg r r := by
  cases r with
  | crash => exact rfl
  | ret v e =>
    cases e with
    | none => exact rfl
    | some err =>
      cases err
      case nilValue s => exact rfl
      all_goals exact rfl

/-- A nonempty list has a last element. -/
theorem getLast?_cons_exists {α : Type} (a : α) (as : List α) :
    ∃ l, (a :: as).getLast? = some l := by
  induction as generalizing a with
  | nil => exact ⟨a, rfl⟩
  | cons b bs ih =>
    obtain ⟨l, hl⟩ := ih b
    exact ⟨l, hl⟩

/-- C1 counterexample: the segment "-1" parses, takes the array-indexing
branch on an array, passes the `len > index` check and crashes; it is
not treated as a mapping-key attempt. -/
theorem C1_counterexample :
    query (Json.arr [Json.bool true]) "-1" = GoRes.crash ∧
    query (Json.arr [Json.bool true]) "-1" ≠
      GoRes.ret Json.null
        (some (JErr.notAnObject "-1" (Json.arr [Json.bool true]))) :=
  ⟨rfl, fun h => nomatch h⟩

/-- C1 (amended): the mapping-key branch is taken exactly for segments
`strconv.Atoi` rejects; any parsed integer segment, negative ones
included, takes the indexing branch — failing `NotAnArray` on a
non-array, and crashing (runtime panic) when negative on an array, so
resolution can abort. -/
theorem C1_branching (blob : Json) (q : String) :
    (atoi q = none → isObj blob = false →
      query blob q = GoRes.ret Json.null (some (JErr.notAnObject q blob))) ∧
    (∀ n : Int, atoi q = some n → isArr blob = false →
      query blob q = GoRes.ret Json.null (some (JErr.notAnArray blob))) ∧
    (∀ n : Int, atoi q = some n → n < 0 → isArr blob = true →
      query blob q = GoRes.crash) ∧
    atoi "-1" = some (-1) := by
  refine ⟨?_, ?_, ?_, by decide⟩
  · intro h1 h2
    simp only [query, h1]
    cases blob
    case obj fields => simp [isObj] at h2
    all_goals rfl
  · intro n h1 h2
    simp only [query, h1]
    cases blob
    case arr xs => simp [isArr] at h2
    all_goals rfl
  · intro n h1 hneg harr
    cases blob
    case arr xs =>
      simp only [query, h1]
      have hlt : n < (xs.length : Int) := by
        have : (0 : Int) ≤ xs.length := Int.ofNat_nonneg xs.length
        omega
      rw [if_pos hlt, if_neg (by omega)]
    all_goals simp [isArr] at harr

theorem C1_branching_witness :
    query (Json.str "s") "key" =
      GoRes.ret Json.null (some (JErr.notAnObject "key" (Json.str "s"))) ∧
    query (Json.str "s") "0" =
      GoRes.ret Json.null (some (JErr.notAnArray (Json.str "s"))) ∧
    query (Json.arr [Json.bool true]) "-2" = GoRes.crash :=
  ⟨(C1_branching (Json.str "s") "key").1 (by decide) rfl,
   (C1_branching (Json.str "s") "0").2.1 0 (by decide) rfl,
   (C1_branching (Json.arr [Json.bool true]) "-2").2.2.1 (-2) (by decide) (by decide) rfl⟩

/-- C2 counterexample: in a context whose panic flag is clear (zero-value
mode), `MustQuery` still panics on error — the two failure modes are
mixed within a single context. -/
theorem C2_counterexample :
    cxq.SingleValuePanicOnError = false ∧
    jqMustQuery cxq ["missing"] =
      PanicOr.panicked (JErr.keyNotFound (Json.obj [("a", Json.bool true)]) "missing") :=
  ⟨rfl, rfl⟩

/-- C2 (amended): each As-prefixed accessor panics exactly when the flag
is set and otherwise returns the value the fallible accessor paired with
the error — the literal `false` for AsBool, and for the others whatever
was returned: the shape's zero value on resolution errors, but possibly
a partially-filled array or a range-clamped integer.  `MustQuery` panics
on any error regardless of the flag, and `MustArrayOfQuery` never
panics. -/
theorem C2_accessor_modes (j : JsonQuery) (s : List String) :
    (∀ v e, jqBool j s = GoRes.ret v (some e) →
      jqAsBool j s =
        if j.SingleValuePanicOnError then PanicOr.panicked e else PanicOr.value false) ∧
    (∀ v e, jqBool j s = GoRes.ret v (some e) → v = false) ∧
    (∀ v e, jqInt j s = GoRes.ret v (some e) →
      jqAsInt j s =
        if j.SingleValuePanicOnError then PanicOr.panicked e else PanicOr.value v) ∧
    (∀ v e, jqInt64 j s = GoRes.ret v (some e) →
      jqAsInt64 j s =
        if j.SingleValuePanicOnError then PanicOr.panicked e else PanicOr.value v) ∧
    (∀ v e, jqString j s = GoRes.ret v (some e) →
      jqAsString j s =
        if j.SingleValuePanicOnError then PanicOr.panicked e else PanicOr.value v) ∧
    (∀ v e, jqObject j s = GoRes.ret v (some e) →
      jqAsObject j s =
        if j.SingleValuePanicOnError then PanicOr.panicked e else PanicOr.value v) ∧
    (∀ v e, jqArray j s = GoRes.ret v (some e) →
      jqAsArray j s =
        if j.SingleValuePanicOnError then PanicOr.panicked e else PanicOr.value v) ∧
    (∀ v e, jqInterface j s = GoRes.ret v (some e) →
      jqAsInterface j s =
        if j.SingleValuePanicOnError then PanicOr.panicked e else PanicOr.value v) ∧
    (∀ v e, jqArrayOfStrings j s = GoRes.ret v (some e) →
      jqAsArrayOfStrings j s =
        if j.SingleValuePanicOnError then PanicOr.panicked e else PanicOr.value v) ∧
    (∀ v e, jqArrayOfInts j s = GoRes.ret v (some e) →
      jqAsArrayOfInts j s =
        if j.SingleValuePanicOnError then PanicOr.panicked e else PanicOr.value v) ∧
    (∀ v e, jqObject j s = GoRes.ret v (some e) →
      jqMustQuery j s = PanicOr.panicked e) ∧
    (∀ e, rquery j.blob s = GoRes.ret Json.null (some e) →
      jqBool j s = GoRes.ret false (some e) ∧
      jqInt64 j s = GoRes.ret 0 (some e) ∧
      jqString j s = GoRes.ret "" (some e) ∧
      jqObject j s = GoRes.ret [] (some e) ∧
      jqArray j s = GoRes.ret [] (some e) ∧
      jqArrayOfInts j s = GoRes.ret [] (some e)) ∧
    (∀ e, jqMustArrayOfQuery j s ≠ PanicOr.panicked e) ∧
    jqAsInt64 ⟨Json.number "9223372036854775808", false⟩ [] =
      PanicOr.value (2 ^ 63 - 1) := by
  refine ⟨?_, ?_, ?_, ?_, ?_, ?_, ?_, ?_, ?_, ?_, ?_, ?_, ?_, rfl⟩
  · intro v e h; unfold jqAsBool; rw [h]
  · intro v e h
    unfold jqBool at h
    cases hr : rquery j.blob s with
    | crash => rw [hr] at h; exact nomatch h
    | ret w eo =>
      rw [hr] at h
      cases eo with
      | some err => injection h with h1 h2; exact h1.symm
      | none =>
        cases w <;> injection h with h1 h2 <;>
          first
          | exact h1.symm
          | exact nomatch h2
  · intro v e h; unfold jqAsInt; rw [h]
  · intro v e h; unfold jqAsInt64; rw [h]
  · intro v e h; unfold jqAsString; rw [h]
  · intro v e h; unfold jqAsObject; rw [h]
  · intro v e h; unfold jqAsArray; rw [h]
  · intro v e h; unfold jqAsInterface; rw [h]
  · intro v e h; unfold jqAsArrayOfStrings; rw [h]
  · intro v e h; unfold jqAsArrayOfInts; rw [h]
  · intro v e h; unfold jqMustQuery; rw [h]
  · intro e hr
    have hb : jqBool j s = GoRes.ret false (some e) := by unfold jqBool; rw [hr]
    have hi : jqInt64 j s = GoRes.ret 0 (some e) := by unfold jqInt64; rw [hr]
    have hs : jqString j s = GoRes.ret "" (some e) := by unfold jqString; rw [hr]
    have ho : jqObject j s = GoRes.ret [] (some e) := by unfold jqObject; rw [hr]
    have ha : jqArray j s = GoRes.ret [] (some e) := by unfold jqArray; rw [hr]
    exact ⟨hb, hi, hs, ho, ha, by unfold jqArrayOfInts; rw [ha]⟩
  · intro e h
    unfold jqMustArrayOfQuery at h
    cases ha : jqArray j s with
    | crash => rw [ha] at h; exact nomatch h
    | ret v eo =>
      rw [ha] at h
      cases eo with
      | some err => exact nomatch h
      | none => exact nomatch h

theorem C2_accessor_modes_witness :
    jqAsBool cxq ["missing"] = PanicOr.value false ∧
    jqAsBool cxqP ["missing"] =
      PanicOr.panicked (JErr.keyNotFound (Json.obj [("a", Json.bool true)]) "missing") ∧
    jqMustQuery cxq ["missing"] =
      PanicOr.panicked (JErr.keyNotFound (Json.obj [("a", Json.bool true)]) "missing") ∧
    jqMustArrayOfQuery cxq ["missing"] ≠
      PanicOr.panicked (JErr.keyNotFound (Json.obj [("a", Json.bool true)]) "missing") := by
  refine ⟨?_, ?_, ?_, ?_⟩
  · have h := (C2_accessor_modes cxq ["missing"]).1 false
      (JErr.keyNotFound (Json.obj [("a", Json.bool true)]) "missing") rfl
    simpa using h
  · have h := (C2_accessor_modes cxqP ["missing"]).1 false
      (JErr.keyNotFound (Json.obj [("a", Json.bool true)]) "missing") rfl
    simpa using h
  · exact (C2_accessor_modes cxq ["missing"]).2.2.2.2.2.2.2.2.2.2.1 []
      (JErr.keyNotFound (Json.obj [("a", Json.bool true)]) "missing") rfl
  · exact (C2_accessor_modes cxq ["missing"]).2.2.2.2.2.2.2.2.2.2.2.2.1
      (JErr.keyNotFound (Json.obj [("a", Json.bool true)]) "missing")

/-- C3: resolving an empty segment sequence returns a non-null root
unchanged, but a null root makes the final null check index `s[-1]` and
crash rather than fail with NilValue — the code slip behind the claim. -/
theorem C3_empty_path :
    rquery Json.null [] = GoRes.crash ∧
    ∀ blob : Json, blob ≠ Json.null → rquery blob [] = GoRes.ret blob none := by
  refine ⟨rfl, ?_⟩
  intro blob hb
  cases blob
  case null => exact absurd rfl hb
  all_goals rfl

theorem C3_empty_path_witness :
    rquery Json.null [] = GoRes.crash ∧
    rquery (Json.bool true) [] = GoRes.ret (Json.bool true) none :=
  ⟨C3_empty_path.1, C3_empty_path.2 (Json.bool true) (fun h => Json.noConfusion h)⟩

/-- C4 counterexample: when the path resolves to null, the string form
reports the whole original string in the NilValue error while the
pre-split form reports the last segment, so on the tree `t4` the two
results differ. -/
theorem C4_counterexample :
    rquery t4 ["a.b[2]"] = GoRes.ret Json.null (some (JErr.nilValue "a.b[2]")) ∧
    rquery t4 ["a", "b", "2"] = GoRes.ret Json.null (some (JErr.nilValue "2")) ∧
    JErr.nilValue "a.b[2]" ≠ JErr.nilValue "2" :=
  ⟨rfl, rfl, fun h => by injection h with h'; exact absurd h' (by decide)⟩

/-- C4 (amended): a delimited single-string path resolves exactly like
its token sequence, except that a final NilValue error names the whole
original string rather than the last token (the token sequence must be
nonempty: an all-delimiter string with a null root reports NilValue
while the empty pre-split sequence crashes). -/
theorem C4_tokenization (blob : Json) (p : String)
    (hd : p.data.any isDelim = true) (hne : fieldsFunc p ≠ []) :
    eqModNilSeg (rquery blob [p]) (rquery blob (fieldsFunc p)) := by
  have h1 : effTerms [p] = fieldsFunc p := by simp [effTerms, hd]
  obtain ⟨l, hl⟩ : ∃ l, (fieldsFunc p).getLast? = some l := by
    cases hfp : fieldsFunc p with
    | nil => exact absurd hfp hne
    | cons a as => exact getLast?_cons_exists a as
  unfold rquery
  rw [h1, effTerms_fieldsFunc, hl]
  cases hq : queryList blob (fieldsFunc p) with
  | crash => exact eqModNilSeg_refl GoRes.crash
  | ret v e =>
    cases e with
    | some err => exact eqModNilSeg_refl (GoRes.ret Json.null (some err))
    | none =>
      cases v
      case null => exact rfl
      all_goals exact eqModNilSeg_refl _

theorem C4_tokenization_witness :
    eqModNilSeg (rquery t4 ["a.b[2]"]) (rquery t4 (fieldsFunc "a.b[2]")) :=
  C4_tokenization t4 "a.b[2]" (by decide) (by decide)

/-- C5: with a nonempty argument list, a fully-resolved null value makes
every fallible accessor fail with the `NilValue` error naming the last
argument, before any coercion; with an empty argument list and a null
root the final null check crashes instead (`NewQuery(nil).Bool()`). -/
theorem C5_null_result :
    (∀ (j : JsonQuery) (s : List String) (x : String) (rest : List String)
        (last : String),
      s = x :: rest → s.getLast? = some last →
      queryList j.blob (effTerms s) = GoRes.ret Json.null none →
      jqBool j s = GoRes.ret false (some (JErr.nilValue last)) ∧
      jqInt64 j s = GoRes.ret 0 (some (JErr.nilValue last)) ∧
      jqString j s = GoRes.ret "" (some (JErr.nilValue last)) ∧
      jqObject j s = GoRes.ret [] (some (JErr.nilValue last)) ∧
      jqArray j s = GoRes.ret [] (some (JErr.nilValue last)) ∧
      jqArrayOfInts j s = GoRes.ret [] (some (JErr.nilValue last))) ∧
    jqBool ⟨Json.null, false⟩ [] = GoRes.crash := by
  refine ⟨?_, rfl⟩
  intro j s x rest last hs hlast hq
  have hrq : rquery j.blob s = GoRes.ret Json.null (some (JErr.nilValue last)) := by
    unfold rquery
    rw [hq, hlast]
  have harr : jqArray j s = GoRes.ret [] (some (JErr.nilValue last)) := by
    unfold jqArray; rw [hrq]
  refine ⟨?_, ?_, ?_, ?_, harr, ?_⟩
  · unfold jqBool; rw [hrq]
  · unfold jqInt64; rw [hrq]
  · unfold jqString; rw [hrq]
  · unfold jqObject; rw [hrq]
  · unfold jqArrayOfInts; rw [harr]

theorem C5_null_result_witness :
    jqBool ⟨Json.obj [("a", Json.null)], false⟩ ["a"] =
      GoRes.ret false (some (JErr.nilValue "a")) ∧
    jqBool ⟨Json.null, false⟩ [] = GoRes.crash :=
  ⟨(C5_null_result.1 ⟨Json.obj [("a", Json.null)], false⟩ ["a"] "a" [] "a"
      rfl rfl rfl).1,
   C5_null_result.2⟩

/-- C6: array-of-int coercion works left to right and stops at the first
failing element, returning that element's error; later elements only
contribute their count of zero slots (they are never coerced), and on
`[1, "x", 3]` the accessor fails at index 1 with partial result
`[1, 0, 0]`. -/
theorem C6_array_first_error :
    (∀ (pre : List Json) (v : Json) (post : List Json) (e : JErr),
      (∀ u ∈ pre, (intFromInterface u).2 = none) →
      (intFromInterface v).2 = some e →
      intsFill (pre ++ v :: post) =
        (pre.map (fun u => (intFromInterface u).1) ++
          (intFromInterface v).1 :: List.replicate post.length 0, some e)) ∧
    jqArrayOfInts ⟨Json.obj [("a", Json.arr [Json.int 1, Json.str "x", Json.int 3])], false⟩
        ["a"] =
      GoRes.ret [1, 0, 0] (some (JErr.typeMismatch "Int" (Json.str "x"))) := by
  refine ⟨?_, rfl⟩
  intro pre v post e hpre hv
  induction pre with
  | nil => simp only [List.nil_append, intsFill, hv, List.map_nil]
  | cons u pre ih =>
    have hu : (intFromInterface u).2 = none := hpre u (List.mem_cons_self u pre)
    have hrest : ∀ w ∈ pre, (intFromInterface w).2 = none :=
      fun w hw => hpre w (List.mem_cons_of_mem u hw)
    simp only [List.cons_append, intsFill, hu, List.map_cons, List.append_eq]
    rw [ih hrest]

theorem C6_array_first_error_witness :
    intsFill [Json.int 1, Json.str "x", Json.int 3] =
      ([1, 0, 0], some (JErr.typeMismatch "Int" (Json.str "x"))) := by
  have h := C6_array_first_error.1 [Json.int 1] (Json.str "x") [Json.int 3]
    (JErr.typeMismatch "Int" (Json.str "x"))
    (by intro u hu; rw [List.mem_singleton] at hu; subst hu; rfl) rfl
  simpa using h

/-- C7: on the tree `t7`, path a.b[1] yields the value 2, a.b[5] fails
IndexOutOfBounds, a.c fails KeyNotFound, and a.b[x] fails NotAnObject
(the parse of x fails so the sequence is treated as a non-mapping). -/
theorem C7_concrete_resolutions :
    rquery t7 ["a.b[1]"] = GoRes.ret (Json.int 2) none ∧
    rquery t7 ["a.b[5]"] =
      GoRes.ret Json.null
        (some (JErr.indexOutOfBounds 5 (Json.arr [Json.int 1, Json.int 2, Json.int 3]))) ∧
    rquery t7 ["a.c"] =
      GoRes.ret Json.null
        (some (JErr.keyNotFound
          (Json.obj [("b", Json.arr [Json.int 1, Json.int 2, Json.int 3])]) "c")) ∧
    rquery t7 ["a.b[x]"] =
      GoRes.ret Json.null
        (some (JErr.notAnObject "x" (Json.arr [Json.int 1, Json.int 2, Json.int 3]))) :=
  ⟨rfl, rfl, rfl, rfl⟩

/-- C8: the string "42" coerces to the integer 42 but fails boolean
coercion with a type mismatch. -/
theorem C8_string_42 :
    intFromInterface (Json.str "42") = (42, none) ∧
    boolFromInterface (Json.str "42") =
      (false, some (JErr.typeMismatch "Bool" (Json.str "42"))) :=
  ⟨rfl, rfl⟩

/-- C9 counterexample: a null intermediate value followed by the
negative-number segment "-1" fails with `NotAnArray`, not the
`NotAnObject` that the claim predicts for a segment that is not a
non-negative integer. -/
theorem C9_counterexample :
    rquery (Json.obj [("x", Json.null)]) ["x", "-1"] =
      GoRes.ret Json.null (some (JErr.notAnArray Json.null)) ∧
    JErr.notAnArray Json.null ≠ JErr.notAnObject "-1" Json.null :=
  ⟨rfl, fun h => JErr.noConfusion h⟩

/-- C9 (amended): when a non-final segment resolves to null, resolution
fails at the next segment with `NotAnArray` if that segment parses as a
(possibly negative) base-10 integer and `NotAnObject` otherwise — never
with `NilValue`.  The side condition keeps the argument list away from
the single-string re-tokenization case. -/
theorem C9_null_intermediate (blob : Json) (pre : List String) (q : String)
    (post : List String)
    (hq : pre ≠ [] ∨ post ≠ [] ∨ q.data.any isDelim = false)
    (hnull : queryList blob pre = GoRes.ret Json.null none) :
    rquery blob (pre ++ q :: post) =
      GoRes.ret Json.null
        (some (if (atoi q).isSome then JErr.notAnArray Json.null
               else JErr.notAnObject q Json.null)) := by
  have heff : effTerms (pre ++ q :: post) = pre ++ q :: post := by
    cases pre with
    | nil =>
      cases post with
      | nil =>
        rcases hq with h | h | h
        · exact absurd rfl h
        · exact absurd rfl h
        · simp [effTerms, h]
      | cons y ys => rfl
    | cons x xs => cases xs <;> rfl
  unfold rquery
  rw [heff, queryList_append, hnull]
  cases hq2 : atoi q with
  | some n => simp [queryList, query, hq2]
  | none => simp [queryList, query, hq2]

theorem C9_null_intermediate_witness :
    rquery (Json.obj [("x", Json.null)]) (["x"] ++ "-1" :: []) =
      GoRes.ret Json.null
        (some (if (atoi "-1").isSome then JErr.notAnArray Json.null
               else JErr.notAnObject "-1" Json.null)) :=
  C9_null_intermediate (Json.obj [("x", Json.null)]) ["x"] "-1" []
    (Or.inl (by simp)) rfl

/-- C10: integer coercion of a uint64-carried value always succeeds and
yields its two's-complement reinterpretation (reduction mod 2^64 into
the signed range); values at or above 2^63 come out negative. -/
theorem C10_uint64_wrap (n : Nat) (hn : n < 2 ^ 64) :
    intFromInterface (Json.uint64 n) = (int64OfUint64 n, none) ∧
    (int64OfUint64 n - (n : Int)) % 2 ^ 64 = 0 ∧
    -(2 ^ 63) ≤ int64OfUint64 n ∧ int64OfUint64 n < 2 ^ 63 ∧
    (2 ^ 63 ≤ n → int64OfUint64 n < 0) := by
  refine ⟨rfl, ?_, ?_, ?_, ?_⟩ <;> (unfold int64OfUint64; omega)

theorem C10_uint64_wrap_witness :
    intFromInterface (Json.uint64 (2 ^ 63)) = (int64OfUint64 (2 ^ 63), none) ∧
    (int64OfUint64 (2 ^ 63) - ((2 ^ 63 : Nat) : Int)) % 2 ^ 64 = 0 ∧
    -(2 ^ 63) ≤ int64OfUint64 (2 ^ 63) ∧ int64OfUint64 (2 ^ 63) < 2 ^ 63 ∧
    (2 ^ 63 ≤ (2 ^ 63 : Nat) → int64OfUint64 (2 ^ 63) < 0) :=
  C10_uint64_wrap (2 ^ 63) (by norm_num)
